import Mathlib

/-
Verification development for the endpoint I/O driver of `quinn`
(src/quinn/src/endpoint.rs).

The driver multiplexes one UDP socket over many QUIC connections.  This file
gives a shallow embedding of the endpoint state and its operations:

* The mutex-protected `EndpointInner` becomes a plain record; every operation
  is an explicit state-passing function.
* Opaque external collaborators (the proto-endpoint, the proto-connection
  machines, the async UDP socket, the adaptive work limiter, the timer wheel)
  are represented by consumable scripts and call logs stored inside the state:
  each call pops the next scripted answer and/or appends to a log, so the
  embedding stays executable and every claim quantifies over the scripts.
* Wakers become numeric identities; waking appends to a `woken_wakers` log.
* Fallible paths return an `Outcome`: `ioErr` for an I/O error returned with
  `?` (the mutated state is abandoned there, as no claim observes it),
  `aborted` for the `unwrap` panic, `diverged` for a loop that exhausts its
  fuel.  Loops are written with structural fuel equal to the length of the
  script that each iteration provably consumes, so evaluation by `rfl` and
  `decide` works on concrete inputs.
-/

set_option autoImplicit false

namespace Quinn

/-! ## Basic data -/

abbrev ConnectionHandle := Nat

abbrev VarInt := Nat

/-- Byte strings (`Bytes` / `BytesMut`) are lists of byte values. -/
abbrev ByteSeq := List Nat

/-- I/O error values; only the `kind` distinction matters to the driver. -/
inductive IOError where
  | connectionReset
  | other (code : Nat)
deriving DecidableEq

/-- `SocketAddrV4` from the source: an IPv4 ip plus port. -/
structure SocketAddrV4 where
  ip : Nat
  port : Nat
deriving DecidableEq

/-- `SocketAddrV6` from the source: ip, port, flowinfo, scope id. -/
structure SocketAddrV6 where
  ip : Nat
  port : Nat
  flowinfo : Nat
  scope_id : Nat
deriving DecidableEq

inductive SocketAddr where
  | V4 (a : SocketAddrV4)
  | V6 (a : SocketAddrV6)
deriving DecidableEq

def SocketAddr.is_ipv6 : SocketAddr → Bool
  | .V6 _ => true
  | .V4 _ => false

/-- `Ipv4Addr::to_ipv6_mapped`: the 128-bit value `::ffff:a.b.c.d`. -/
def to_ipv6_mapped (ip : Nat) : Nat := 0xffff * 2 ^ 32 + ip % 2 ^ 32

/-- `ensure_ipv6` from endpoint.rs: map an IPv4 address to its IPv6-mapped
form, pass an IPv6 address through. -/
def ensure_ipv6 : SocketAddr → SocketAddrV6
  | .V6 x => x
  | .V4 x => ⟨to_ipv6_mapped x.ip, x.port, 0, 0⟩

/-- A queued transmit (`proto::Transmit`): destination, optional source,
optional ECN, payload, optional GSO segment size. -/
structure Transmit where
  destination : SocketAddr
  src_ip : Option Nat
  ecn : Option Nat
  payload : ByteSeq
  segment_size : Option Nat
deriving DecidableEq

/-- An endpoint-facing event drained from a proto-connection via
`poll_endpoint_events`; the driver only inspects `is_drained`. -/
structure EndpointEvent where
  payload : Nat
  drained : Bool
deriving DecidableEq

def EndpointEvent.is_drained (e : EndpointEvent) : Bool := e.drained

/-! ## Opaque proto-connection (§6.3 of the spec)

Modelled from the spec: the per-connection protocol machine lives in
connection.rs, which is not under src/; its operations used by the driver
(`drive_transmit`, `poll_timeout`, `poll_endpoint_events`, `handle_event`,
`handle_timeout`) are represented by behavior scripts plus effect logs. -/

/-- Modelled from the spec: opaque per-connection proto state (§6.3).
`transmits`/`transmitKeepGoing` script one `drive_transmit` call,
`pollTimeoutVal` scripts `poll_timeout`, `endpointEvents` scripts the
`poll_endpoint_events` drain; `timeoutsHandled` and `handledEvents` log
`handle_timeout` and `handle_event` deliveries. -/
structure ProtoConnection where
  transmits : List Transmit
  transmitKeepGoing : Bool
  pollTimeoutVal : Option Nat
  endpointEvents : List EndpointEvent
  timeoutsHandled : Nat
  handledEvents : List Nat
deriving DecidableEq

/-- The shared per-connection state behind a `ConnectionRef`.  The fields the
driver touches in endpoint.rs are kept by name (`is_dirty`, `timer_handle`,
`timer_deadline`); `closed` and `woken` record the connection-side `close`
and `wake` calls, modelled from the spec since connection.rs is not in src/. -/
structure ConnectionRef where
  conn : ProtoConnection
  is_dirty : Bool
  timer_handle : Option Nat
  timer_deadline : Option Nat
  closed : Option (VarInt × ByteSeq)
  woken : Bool
deriving DecidableEq

def ConnectionRef.wake (c : ConnectionRef) : ConnectionRef := { c with woken := true }

/-- Modelled from the spec: connection-side `state.close(error_code, reason)`
(§4.1: "initiate close on every existing connection with the given code and
reason").  Initiating close on a connection that is already closing leaves its
terminal code and reason unchanged; the connection task is woken. -/
def ConnectionRef.close (c : ConnectionRef) (error_code : VarInt) (reason : ByteSeq) :
    ConnectionRef :=
  { c with
    closed := match c.closed with
      | some x => some x
      | none => some (error_code, reason)
    woken := true }

/-! ## Opaque proto-endpoint (§6.2 of the spec) -/

/-- `proto::DatagramEvent`: result of handing one datagram segment to the
proto-endpoint. -/
inductive DatagramEvent where
  | NewConnection (conn : ProtoConnection)
  | ConnectionEvent (event : Nat)
deriving DecidableEq

/-- `proto::ConnectError`, with the variants endpoint.rs produces itself plus
an opaque constructor for errors surfaced by the proto-endpoint. -/
inductive ConnectError where
  | NoDefaultClientConfig
  | EndpointStopping
  | InvalidRemoteAddress (addr : SocketAddr)
  | protoRefused (code : Nat)
deriving DecidableEq

/-- Scripted result of `proto::Endpoint::connect`. -/
inductive ConnectResult where
  | failure (e : ConnectError)
  | success (handle : ConnectionHandle) (conn : ProtoConnection)
deriving DecidableEq

/-- The opaque QUIC proto-endpoint (§6.2).  Its stateful calls are scripts:
`handleScript` answers `handle(..)` one datagram segment at a time (an
exhausted script means the datagram is discarded), `transmitQueue` feeds
`poll_transmit`, `handleEventScript` answers `handle_event(handle, event)`
with an optional reply event, `connectResult` answers `connect`, and
`connectCalledWith` logs the remote address each `connect` call passes in. -/
structure ProtoEndpoint where
  handleScript : List (Option (ConnectionHandle × DatagramEvent))
  transmitQueue : List Transmit
  handleEventScript : List (Option Nat)
  connectResult : ConnectResult
  connectCalledWith : List SocketAddr
deriving DecidableEq

/-- One `handle(now, addr, dst_ip, ecn, buf)` call: pop the next scripted
routing decision. -/
def ProtoEndpoint.handleCall (pe : ProtoEndpoint) :
    Option (ConnectionHandle × DatagramEvent) × ProtoEndpoint :=
  match pe.handleScript with
  | [] => (none, pe)
  | r :: rest => (r, { pe with handleScript := rest })

/-- One `poll_transmit()` call: pop the next endpoint-level transmit. -/
def ProtoEndpoint.poll_transmit (pe : ProtoEndpoint) :
    Option Transmit × ProtoEndpoint :=
  match pe.transmitQueue with
  | [] => (none, pe)
  | t :: rest => (some t, { pe with transmitQueue := rest })

/-- One `handle_event(handle, event)` call: pop the next scripted reply. -/
def ProtoEndpoint.handleEventCall (pe : ProtoEndpoint) :
    Option Nat × ProtoEndpoint :=
  match pe.handleEventScript with
  | [] => (none, pe)
  | r :: rest => (r, { pe with handleEventScript := rest })

/-- One `connect(config, addr, server_name)` call: log the address the driver
passes to the proto-endpoint and return the scripted result. -/
def ProtoEndpoint.connect (pe : ProtoEndpoint) (addr : SocketAddr) :
    ConnectResult × ProtoEndpoint :=
  (pe.connectResult, { pe with connectCalledWith := pe.connectCalledWith ++ [addr] })

/-! ## Async UDP socket (§6.1 of the spec) -/

/-- Per-message receive metadata plus payload: `meta.addr`, `meta.dst_ip`,
`meta.ecn`, `meta.stride` and `buf[0..meta.len]` fused into one record. -/
structure RecvMsg where
  addr : SocketAddr
  dst_ip : Option Nat
  ecn : Option Nat
  stride : Nat
  payload : ByteSeq
deriving DecidableEq

/-- One scripted answer of `poll_recv`. -/
inductive RecvRes where
  | recvOk (msgs : List RecvMsg)
  | recvPending
  | recvErr (e : IOError)
deriving DecidableEq

/-- One scripted answer of `poll_send`. -/
inductive SendRes where
  | sendOk (n : Nat)
  | sendPending
  | sendErr (e : IOError)
deriving DecidableEq

/-- The abstract non-blocking socket: scripts for both directions (an
exhausted script answers `Pending`, i.e. the socket has parked the caller),
plus a log of the transmit slices submitted to `poll_send`. -/
structure AsyncUdpSocket where
  recvScript : List RecvRes
  sendScript : List SendRes
  sent : List (List Transmit)
deriving DecidableEq

def AsyncUdpSocket.poll_recv (s : AsyncUdpSocket) : RecvRes × AsyncUdpSocket :=
  match s.recvScript with
  | [] => (.recvPending, s)
  | r :: rest => (r, { s with recvScript := rest })

def AsyncUdpSocket.poll_send (s : AsyncUdpSocket) (transmits : List Transmit) :
    SendRes × AsyncUdpSocket :=
  match s.sendScript with
  | [] => (.sendPending, { s with sent := s.sent ++ [transmits] })
  | r :: rest => (r, { s with sendScript := rest, sent := s.sent ++ [transmits] })

/-- `udp::BATCH_SIZE`, the batch width for both directions.  Modelled from the
spec (§6.1); the udp crate is not under src/ and the driver only compares
queue lengths against it. -/
def BATCH_SIZE : Nat := 32

/-! ## Work limiter (§4.5 of the spec)

The real limiter is a wall-clock regulator; wall-clock time is outside the
embedding, so `allow_work` answers from a script (an exhausted script answers
`true`) while `record_work` keeps the per-cycle work count. -/

structure WorkLimiter where
  allowScript : List Bool
  work : Nat
deriving DecidableEq

def WorkLimiter.start_cycle (l : WorkLimiter) : WorkLimiter := { l with work := 0 }

def WorkLimiter.finish_cycle (l : WorkLimiter) : WorkLimiter := l

def WorkLimiter.record_work (l : WorkLimiter) (n : Nat) : WorkLimiter :=
  { l with work := l.work + n }

def WorkLimiter.allow_work (l : WorkLimiter) : Bool × WorkLimiter :=
  match l.allowScript with
  | [] => (true, l)
  | b :: rest => (b, { l with allowScript := rest })

/-! ## Timer wheel (`tokio_util::time::DelayQueue`) -/

/-- The timer wheel, reduced to what the driver observes: `expired` is the
run of entries `poll_expired` yields this pass, `entries` the pending
`(key, handle, deadline)` rows, `nextKey` the key allocator. -/
structure DelayQueue where
  expired : List ConnectionHandle
  nextKey : Nat
  entries : List (Nat × ConnectionHandle × Nat)
deriving DecidableEq

def DelayQueue.insert_at (t : DelayQueue) (h : ConnectionHandle) (deadline : Nat) :
    Nat × DelayQueue :=
  (t.nextKey,
   { t with nextKey := t.nextKey + 1, entries := t.entries ++ [(t.nextKey, h, deadline)] })

def DelayQueue.reset_at (t : DelayQueue) (key : Nat) (deadline : Nat) : DelayQueue :=
  { t with entries := t.entries.map (fun e => if e.1 = key then (e.1, e.2.1, deadline) else e) }

/-! ## Connection set -/

/-- `Connecting`, the handshake future handed to the user; the embedding only
tracks which connection it belongs to. -/
structure Connecting where
  handle : ConnectionHandle
deriving DecidableEq

/-- Modelled from the spec: `Connecting::new` (connection.rs is not in src/)
builds the handshake future plus the fresh shared connection reference. -/
def Connecting.new (handle : ConnectionHandle) (conn : ProtoConnection) :
    Connecting × ConnectionRef :=
  (⟨handle⟩,
   { conn := conn, is_dirty := false, timer_handle := none, timer_deadline := none,
     closed := none, woken := false })

/-- Association-list lookup standing in for `FxHashMap::get`. -/
def alistGet : List (ConnectionHandle × ConnectionRef) → ConnectionHandle →
    Option ConnectionRef
  | [], _ => none
  | (k, v) :: rest, h => if k = h then some v else alistGet rest h

/-- Association-list insert standing in for `FxHashMap::insert` (replaces an
existing binding). -/
def alistInsert : List (ConnectionHandle × ConnectionRef) → ConnectionHandle →
    ConnectionRef → List (ConnectionHandle × ConnectionRef)
  | [], h, v => [(h, v)]
  | (k, w) :: rest, h, v =>
      if k = h then (h, v) :: rest else (k, w) :: alistInsert rest h v

/-- Association-list removal standing in for `FxHashMap::remove`. -/
def alistRemove : List (ConnectionHandle × ConnectionRef) → ConnectionHandle →
    List (ConnectionHandle × ConnectionRef)
  | [], _ => []
  | (k, v) :: rest, h =>
      if k = h then alistRemove rest h else (k, v) :: alistRemove rest h

/-- `ConnectionSet` from endpoint.rs: the handle map plus the recorded manual
close. -/
structure ConnectionSet where
  refs : List (ConnectionHandle × ConnectionRef)
  close : Option (VarInt × ByteSeq)
deriving DecidableEq

/-- `ConnectionSet::insert`: build the `Connecting` future and shared
reference, apply any recorded close, store the reference under the handle.
(The dirty-channel sender and `udp_state` arguments carry no state the
embedding observes.) -/
def ConnectionSet.insert (s : ConnectionSet) (handle : ConnectionHandle)
    (conn : ProtoConnection) : Connecting × ConnectionSet :=
  let fc := Connecting.new handle conn
  let cref := match s.close with
    | some (error_code, reason) => fc.2.close error_code reason
    | none => fc.2
  (fc.1, { s with refs := alistInsert s.refs handle cref })

def ConnectionSet.is_empty (s : ConnectionSet) : Bool := s.refs.isEmpty

/-! ## Endpoint state -/

/-- `EndpointInner` from endpoint.rs.  `dirty` is the content of the
`dirty_recv` channel; `idle_notified` records `idle.notify_waiters()`;
`woken_wakers` logs every `Waker::wake`. -/
structure EndpointInner where
  socket : AsyncUdpSocket
  inner : ProtoEndpoint
  outgoing : List Transmit
  incoming : List Connecting
  incoming_reader : Option Nat
  driver : Option Nat
  ipv6 : Bool
  connections : ConnectionSet
  ref_count : Nat
  driver_lost : Bool
  recv_limiter : WorkLimiter
  send_limiter : WorkLimiter
  idle_notified : Bool
  timers : DelayQueue
  dirty : List ConnectionHandle
  dirty_buffer : List ConnectionHandle
  woken_wakers : List Nat
deriving DecidableEq

/-- Result of a fallible driver pass. -/
inductive Outcome (α : Type) where
  | ok (a : α)
  | ioErr (e : IOError)
  | aborted
  | diverged
deriving DecidableEq

/-! ## Receive pump (`EndpointInner::drive_recv`) -/

/-- Hand one datagram segment to the proto-endpoint and apply the routing
decision: a `NewConnection` is inserted into the connection set and queued on
`incoming`; a `ConnectionEvent` is delivered to the target connection looked
up with `.unwrap()` — a missing handle aborts (`Outcome.aborted`); `none`
means the datagram was discarded.  The segment bytes are consumed by the
opaque proto-endpoint, whose answer comes from its script. -/
def handleSegment (st : EndpointInner) (seg : ByteSeq) : Outcome EndpointInner :=
  let rc := st.inner.handleCall
  let st1 := { st with inner := rc.2 }
  match rc.1 with
  | some (handle, .NewConnection conn) =>
      let fc := st1.connections.insert handle conn
      .ok { st1 with connections := fc.2, incoming := st1.incoming ++ [fc.1] }
  | some (handle, .ConnectionEvent event) =>
      match alistGet st1.connections.refs handle with
      | none => .aborted
      | some conn =>
          let conn :=
            { conn with
              conn := { conn.conn with handledEvents := conn.conn.handledEvents ++ [event] },
              woken := true }
          .ok { st1 with connections :=
                  { st1.connections with
                    refs := alistInsert st1.connections.refs handle conn } }
  | none =>
      let _ := seg
      .ok st1

/-- The per-datagram GRO segmentation loop:
`while !data.is_empty() { let buf = data.split_to(meta.stride.min(data.len())); ... }`.
Each iteration consumes `min(stride, data.length)` bytes.  The loop is given
`payload.length` fuel; with `stride ≥ 1` that always suffices, while
`stride = 0` on a non-empty payload exhausts any fuel (`Outcome.diverged`),
mirroring the real loop's non-termination. -/
def recvSegLoop (stride : Nat) : Nat → EndpointInner → ByteSeq → Outcome EndpointInner
  | _, st, [] => .ok st
  | 0, _, _ :: _ => .diverged
  | fuel + 1, st, b :: bs =>
      let n := min stride (b :: bs).length
      match handleSegment st ((b :: bs).take n) with
      | .ok st1 => recvSegLoop stride fuel st1 ((b :: bs).drop n)
      | .ioErr e => .ioErr e
      | .aborted => .aborted
      | .diverged => .diverged

/-- Process one received message: run the GRO segmentation loop over its
payload. -/
def processMsg (st : EndpointInner) (msg : RecvMsg) : Outcome EndpointInner :=
  recvSegLoop msg.stride msg.payload.length st msg.payload

/-- `for (meta, buf) in metas.iter().zip(iovs.iter()).take(msgs)`. -/
def processMsgs : EndpointInner → List RecvMsg → Outcome EndpointInner
  | st, [] => .ok st
  | st, m :: ms =>
      match processMsg st m with
      | .ok st1 => processMsgs st1 ms
      | .ioErr e => .ioErr e
      | .aborted => .aborted
      | .diverged => .diverged

/-- One iteration of the `drive_recv` socket loop: either a final answer
(`done`) or another spin (`again`).  A connection-reset error spins without
consulting the work limiter (the source `continue` skips that check); any
other error is surfaced; on success the message count is recorded as work and
the limiter may stop the pass with `keep_going = true`. -/
inductive RecvStep where
  | done (r : Outcome (Bool × EndpointInner))
  | again (st : EndpointInner)

def driveRecvStep (st : EndpointInner) : RecvStep :=
  let pr := st.socket.poll_recv
  let st1 := { st with socket := pr.2 }
  match pr.1 with
  | .recvPending =>
      .done (.ok (false, { st1 with recv_limiter := st1.recv_limiter.finish_cycle }))
  | .recvErr e =>
      if e = .connectionReset then .again st1
      else .done (.ioErr e)
  | .recvOk msgs =>
      let st2 := { st1 with recv_limiter := st1.recv_limiter.record_work msgs.length }
      match processMsgs st2 msgs with
      | .ok st3 =>
          let aw := st3.recv_limiter.allow_work
          let st4 := { st3 with recv_limiter := aw.2 }
          if aw.1 then .again st4
          else .done (.ok (true, { st4 with recv_limiter := st4.recv_limiter.finish_cycle }))
      | .ioErr e => .done (.ioErr e)
      | .aborted => .done .aborted
      | .diverged => .done .diverged

/-- The `drive_recv` socket loop.  Fuel counts loop iterations; every spin of
the real loop consumes one entry of the receive script, so
`recvScript.length` fuel makes the fuel-0 fallback coincide with polling the
exhausted (pending) socket. -/
def driveRecvLoop : Nat → EndpointInner → Outcome (Bool × EndpointInner)
  | 0, st =>
      match driveRecvStep st with
      | .done r => r
      | .again st1 => .ok (false, { st1 with recv_limiter := st1.recv_limiter.finish_cycle })
  | fuel + 1, st =>
      match driveRecvStep st with
      | .done r => r
      | .again st1 => driveRecvLoop fuel st1

/-- `EndpointInner::drive_recv`: start a limiter cycle, then drain the socket.
(The scatter-array setup over `recv_buf` is memory layout and has no
observable effect in the embedding.) -/
def EndpointInner.drive_recv (st : EndpointInner) : Outcome (Bool × EndpointInner) :=
  driveRecvLoop st.socket.recvScript.length
    { st with recv_limiter := st.recv_limiter.start_cycle }

/-! ## Send pump (`EndpointInner::drive_send`) -/

/-- `while self.outgoing.len() < BATCH_SIZE { match self.inner.poll_transmit() ... }`;
fuel is the transmit-queue length, which each pop consumes. -/
def topUpLoop : Nat → EndpointInner → EndpointInner
  | 0, st => st
  | fuel + 1, st =>
      if st.outgoing.length < BATCH_SIZE then
        match st.inner.transmitQueue with
        | [] => st
        | x :: rest =>
            topUpLoop fuel
              { st with outgoing := st.outgoing ++ [x],
                        inner := { st.inner with transmitQueue := rest } }
      else st

def topUp (st : EndpointInner) : EndpointInner :=
  topUpLoop st.inner.transmitQueue.length st

/-- One iteration of the `drive_send` loop: top up `outgoing`, return `false`
if it is empty, `true` if the limiter forbids work, otherwise submit the
front slice of `outgoing` to `poll_send`; on success drop the sent transmits
and record them as work, on pending return `false`, on error surface it. -/
inductive SendStep where
  | done (r : Outcome (Bool × EndpointInner))
  | again (st : EndpointInner)

def driveSendStep (st0 : EndpointInner) : SendStep :=
  let st := topUp st0
  if st.outgoing.isEmpty then .done (.ok (false, st))
  else
    let aw := st.send_limiter.allow_work
    let st1 := { st with send_limiter := aw.2 }
    if aw.1 = false then .done (.ok (true, st1))
    else
      let ps := st1.socket.poll_send st1.outgoing
      let st2 := { st1 with socket := ps.2 }
      match ps.1 with
      | .sendOk n =>
          .again { st2 with outgoing := st2.outgoing.drop n,
                            send_limiter := st2.send_limiter.record_work n }
      | .sendPending => .done (.ok (false, st2))
      | .sendErr e => .done (.ioErr e)

/-- The `drive_send` loop; fuel is the send-script length, which every spin
consumes (a spin requires a successful `poll_send`, which pops one script
entry), so the fuel-0 fallback is unreachable from `drive_send`. -/
def driveSendLoop : Nat → EndpointInner → Outcome (Bool × EndpointInner)
  | 0, st =>
      match driveSendStep st with
      | .done r => r
      | .again st1 => .ok (false, st1)
  | fuel + 1, st =>
      match driveSendStep st with
      | .done r => r
      | .again st1 => driveSendLoop fuel st1

/-- `EndpointInner::drive_send`: run the loop inside a limiter cycle.  (In the
source `finish_cycle` also runs before an error is returned; error outcomes
abandon the state in this embedding, so only the success path records it.) -/
def EndpointInner.drive_send (st : EndpointInner) : Outcome (Bool × EndpointInner) :=
  match driveSendLoop st.socket.sendScript.length
      { st with send_limiter := st.send_limiter.start_cycle } with
  | .ok (b, st1) => .ok (b, { st1 with send_limiter := st1.send_limiter.finish_cycle })
  | .ioErr e => .ioErr e
  | .aborted => .aborted
  | .diverged => .diverged

/-! ## Connection driver (`EndpointInner::drive_connections`) -/

/-- The timer loop: for each expired entry, look up the connection — a
missing handle is skipped — then `handle_timeout(now)`, clear the stored
timer handle and deadline, and wake the connection task. -/
def driveTimersLoop : List ConnectionHandle → EndpointInner → EndpointInner
  | [], st => st
  | conn_handle :: rest, st =>
      match alistGet st.connections.refs conn_handle with
      | none => driveTimersLoop rest st
      | some conn =>
          let conn :=
            { conn with
              conn := { conn.conn with timeoutsHandled := conn.conn.timeoutsHandled + 1 },
              timer_handle := none, timer_deadline := none, woken := true }
          driveTimersLoop rest
            { st with connections :=
                { st.connections with
                  refs := alistInsert st.connections.refs conn_handle conn } }

/-- `while let Poll::Ready(Some(result)) = self.timers.poll_expired(cx)`:
drain every ready timer entry. -/
def driveTimers (st : EndpointInner) : EndpointInner :=
  driveTimersLoop st.timers.expired { st with timers := { st.timers with expired := [] } }

/-- `while let Some(event) = state.inner.poll_endpoint_events()`: push the
handle onto `drained` for every drained marker, forward each event to the
proto-endpoint, and deliver any reply event back to the connection (which
forces another poll of the connection). -/
def processEvents (conn_handle : ConnectionHandle) :
    List EndpointEvent → ProtoEndpoint → ConnectionRef → List ConnectionHandle → Bool →
    ProtoEndpoint × ConnectionRef × List ConnectionHandle × Bool
  | [], pe, conn, drained, keep_conn_going => (pe, conn, drained, keep_conn_going)
  | event :: rest, pe, conn, drained, keep_conn_going =>
      let drained := if event.is_drained then drained ++ [conn_handle] else drained
      let rc := pe.handleEventCall
      match rc.1 with
      | some reply =>
          processEvents conn_handle rest rc.2
            { conn with
              conn := { conn.conn with handledEvents := conn.conn.handledEvents ++ [reply] } }
            drained true
      | none => processEvents conn_handle rest rc.2 conn drained keep_conn_going

/-- Process one dirty handle: skip a missing connection; otherwise clear
`is_dirty`, run `drive_transmit` into `outgoing`, reconcile the timer with
`poll_timeout()` (a changed deadline sets `keep_going`), drain
`poll_endpoint_events`, and wake the connection if it asked to be re-polled. -/
def processOne (st : EndpointInner) (conn_handle : ConnectionHandle)
    (keep_going : Bool) (drained : List ConnectionHandle) :
    Bool × List ConnectionHandle × EndpointInner :=
  match alistGet st.connections.refs conn_handle with
  | none => (keep_going, drained, st)
  | some conn0 =>
      let conn1 := { conn0 with is_dirty := false }
      let stA := { st with outgoing := st.outgoing ++ conn1.conn.transmits }
      let keep_conn_going := conn1.conn.transmitKeepGoing
      let conn2 := { conn1 with conn := { conn1.conn with transmits := [] } }
      let kst : Bool × EndpointInner × ConnectionRef :=
        match conn2.conn.pollTimeoutVal with
        | some deadline =>
            if some deadline ≠ conn2.timer_deadline then
              match conn2.timer_handle with
              | some key => (true, { stA with timers := stA.timers.reset_at key deadline }, conn2)
              | none =>
                  let it := stA.timers.insert_at conn_handle deadline
                  (true, { stA with timers := it.2 }, { conn2 with timer_handle := some it.1 })
            else (keep_going, stA, conn2)
        | none => (keep_going, stA, conn2)
      let pr := processEvents conn_handle kst.2.2.conn.endpointEvents kst.2.1.inner
          { kst.2.2 with conn := { kst.2.2.conn with endpointEvents := [] } }
          drained keep_conn_going
      let stB := { kst.2.1 with inner := pr.1 }
      let cw : ConnectionRef × Bool :=
        if pr.2.2.2 then (pr.2.1.wake, true) else (pr.2.1, kst.1)
      (cw.2, pr.2.2.1,
       { stB with connections :=
           { stB.connections with
             refs := alistInsert stB.connections.refs conn_handle cw.1 } })

/-- `for conn_handle in self.dirty_buffer.drain(..)`. -/
def processDirtyList : List ConnectionHandle → Bool → List ConnectionHandle →
    EndpointInner → Bool × List ConnectionHandle × EndpointInner
  | [], keep_going, drained, st => (keep_going, drained, st)
  | conn_handle :: rest, keep_going, drained, st =>
      let r := processOne st conn_handle keep_going drained
      processDirtyList rest r.1 r.2.1 r.2.2

/-- `EndpointInner::drive_connections`: drain expired timers, snapshot the
dirty channel into `dirty_buffer`, process every dirty handle (the source
drains `dirty_buffer` as it iterates and the loop body never reads it, so the
snapshot `buf` with an emptied buffer is the same computation), retire
drained handles from `connections.refs`, and notify `idle` waiters if the set
is now empty. -/
def EndpointInner.drive_connections (st : EndpointInner) : Bool × EndpointInner :=
  let stT := driveTimers st
  let buf := stT.dirty_buffer ++ stT.dirty
  let stE := { stT with dirty := [], dirty_buffer := [] }
  let r := processDirtyList buf false [] stE
  let stF :=
    { r.2.2 with connections :=
        { r.2.2.connections with
          refs := r.2.1.foldl (fun refs h => alistRemove refs h) r.2.2.connections.refs } }
  let stG := if stF.connections.is_empty then { stF with idle_notified := true } else stF
  (r.1, stG)

/-! ## Driver future (`EndpointDriver`) -/

/-- `if !endpoint.incoming.is_empty() { if let Some(task) = incoming_reader.take() { task.wake() } }`. -/
def wakeIncomingReader (st : EndpointInner) : EndpointInner :=
  if st.incoming.isEmpty then st
  else
    match st.incoming_reader with
    | some task =>
        { st with incoming_reader := none, woken_wakers := st.woken_wakers ++ [task] }
    | none => st

/-- The visible result of one driver poll. -/
inductive DriverPoll where
  | readyOk
  | pendingWith (selfWoke : Bool)
deriving DecidableEq

/-- `impl Future for EndpointDriver`: store the driver waker if absent, run
`drive_recv` → `drive_connections` → `drive_send` OR-ing their `keep_going`
results (either I/O error aborts the poll with that error), wake the accept
consumer if `incoming` is non-empty, complete when `ref_count == 0` and the
connection set is empty, and otherwise self-wake exactly when some pass
reported `keep_going`. -/
def EndpointDriver.poll (cx : Nat) (st : EndpointInner) :
    Outcome (DriverPoll × EndpointInner) :=
  let st0 := if st.driver.isNone then { st with driver := some cx } else st
  match st0.drive_recv with
  | .ioErr e => .ioErr e
  | .aborted => .aborted
  | .diverged => .diverged
  | .ok kst =>
      let kc := kst.2.drive_connections
      match kc.2.drive_send with
      | .ioErr e => .ioErr e
      | .aborted => .aborted
      | .diverged => .diverged
      | .ok ks =>
          let keep_going := kst.1 || kc.1 || ks.1
          let st4 := wakeIncomingReader ks.2
          if st4.ref_count == 0 && st4.connections.is_empty then .ok (.readyOk, st4)
          else if keep_going then
            .ok (.pendingWith true, { st4 with woken_wakers := st4.woken_wakers ++ [cx] })
          else .ok (.pendingWith false, st4)

/-- `impl Drop for EndpointDriver`: flag the driver as lost and wake the
accept-stream consumer. -/
def EndpointDriver.drop (st : EndpointInner) : EndpointInner :=
  let st1 := { st with driver_lost := true }
  match st1.incoming_reader with
  | some task =>
      { st1 with incoming_reader := none, woken_wakers := st1.woken_wakers ++ [task] }
  | none => st1

/-! ## Public surface: `Endpoint`, `Incoming`, `EndpointRef` -/

abbrev ClientConfig := Nat

/-- The user-facing `Endpoint` handle: a view of the shared state plus the
default client configuration. -/
structure Endpoint where
  inner : EndpointInner
  default_client_config : Option ClientConfig
deriving DecidableEq

/-- `Endpoint::connect_with`: refuse when the driver is lost; refuse an IPv6
destination on a non-IPv6 socket; on an IPv6 socket rewrite the destination
through `ensure_ipv6` before handing it to the proto-endpoint; on success
insert the new connection into the set and return the `Connecting` future
(paired with the updated shared state). -/
def Endpoint.connect_with (e : Endpoint) (_config : ClientConfig) (addr : SocketAddr)
    (_server_name : String) : Except ConnectError (Connecting × EndpointInner) :=
  let endpoint := e.inner
  if endpoint.driver_lost then .error .EndpointStopping
  else if addr.is_ipv6 && !endpoint.ipv6 then .error (.InvalidRemoteAddress addr)
  else
    let addr1 := if endpoint.ipv6 then SocketAddr.V6 (ensure_ipv6 addr) else addr
    let cr := endpoint.inner.connect addr1
    let endpoint1 := { endpoint with inner := cr.2 }
    match cr.1 with
    | .failure err => .error err
    | .success ch conn =>
        let fc := endpoint1.connections.insert ch conn
        .ok (fc.1, { endpoint1 with connections := fc.2 })

/-- `Endpoint::connect`: use the default client configuration or fail with
`NoDefaultClientConfig`. -/
def Endpoint.connect (e : Endpoint) (addr : SocketAddr) (server_name : String) :
    Except ConnectError (Connecting × EndpointInner) :=
  match e.default_client_config with
  | none => .error .NoDefaultClientConfig
  | some config => e.connect_with config addr server_name

/-- `Endpoint::close`: record the pending close in the connection set, invoke
close with that code and reason on every connection in the set, and wake the
accept-stream consumer. -/
def Endpoint.close (st : EndpointInner) (error_code : VarInt) (reason : ByteSeq) :
    EndpointInner :=
  let st1 :=
    { st with connections :=
        { st.connections with
          close := some (error_code, reason),
          refs := st.connections.refs.map
            (fun (p : ConnectionHandle × ConnectionRef) =>
              (p.1, p.2.close error_code reason)) } }
  match st1.incoming_reader with
  | some task =>
      { st1 with incoming_reader := none, woken_wakers := st1.woken_wakers ++ [task] }
  | none => st1

/-- The visible result of polling the `Incoming` stream. -/
inductive IncomingPoll where
  | readyNone
  | readySome (c : Connecting)
  | stillPending
deriving DecidableEq

/-- `Incoming::poll`: end-of-stream when the driver is lost; otherwise pop the
oldest queued connection; otherwise end-of-stream when a manual close is
recorded; otherwise park the caller's waker in `incoming_reader`. -/
def Incoming.poll (cx : Nat) (st : EndpointInner) : IncomingPoll × EndpointInner :=
  if st.driver_lost then (.readyNone, st)
  else
    match st.incoming with
    | conn :: rest => (.readySome conn, { st with incoming := rest })
    | [] =>
        if st.connections.close.isSome then (.readyNone, st)
        else (.stillPending, { st with incoming_reader := some cx })

/-- `impl Clone for EndpointRef`: `ref_count += 1`. -/
def EndpointRef.clone (st : EndpointInner) : EndpointInner :=
  { st with ref_count := st.ref_count + 1 }

/-- `impl Drop for EndpointRef`: `checked_sub(1)` — a drop at `ref_count == 0`
is absorbed; a drop that reaches zero takes the stored driver waker and wakes
it. -/
def EndpointRef.drop (st : EndpointInner) : EndpointInner :=
  match st.ref_count with
  | 0 => st
  | x + 1 =>
      let st1 := { st with ref_count := x }
      if x = 0 then
        match st1.driver with
        | some task =>
            { st1 with driver := none, woken_wakers := st1.woken_wakers ++ [task] }
        | none => st1
      else st1

/-! ## Sample states for concrete witnesses -/

def emptyProtoConnection : ProtoConnection :=
  { transmits := [], transmitKeepGoing := false, pollTimeoutVal := none,
    endpointEvents := [], timeoutsHandled := 0, handledEvents := [] }

def emptyProtoEndpoint : ProtoEndpoint :=
  { handleScript := [], transmitQueue := [], handleEventScript := [],
    connectResult := .failure (.protoRefused 0), connectCalledWith := [] }

def emptySocket : AsyncUdpSocket := { recvScript := [], sendScript := [], sent := [] }

def emptyLimiter : WorkLimiter := { allowScript := [], work := 0 }

def emptyTimers : DelayQueue := { expired := [], nextKey := 0, entries := [] }

/-- A quiescent endpoint state: every script empty, no connections, no
handles. -/
def emptyState : EndpointInner :=
  { socket := emptySocket, inner := emptyProtoEndpoint, outgoing := [], incoming := [],
    incoming_reader := none, driver := none, ipv6 := false,
    connections := { refs := [], close := none }, ref_count := 0, driver_lost := false,
    recv_limiter := emptyLimiter, send_limiter := emptyLimiter, idle_notified := false,
    timers := emptyTimers, dirty := [], dirty_buffer := [], woken_wakers := [] }

/-- An `Endpoint` handle over an IPv6 socket whose proto-endpoint will accept
the next `connect` with handle 2. -/
def connectSampleEndpoint : Endpoint :=
  { inner :=
      { emptyState with
        ipv6 := true,
        inner := { emptyProtoEndpoint with
                   connectResult := .success 2 emptyProtoConnection } },
    default_client_config := some 0 }

/-- A freshly inserted, not-yet-closed connection reference. -/
def sampleConn : ConnectionRef := (Connecting.new 4 emptyProtoConnection).2

/-- A state with one live connection and a parked accept-stream consumer. -/
def closeSampleState : EndpointInner :=
  { emptyState with
    connections := { refs := [(4, sampleConn)], close := none },
    incoming_reader := some 9 }

/-- A dirty connection whose proto-connection has a drained event pending. -/
def drainedConn : ConnectionRef :=
  { conn := { emptyProtoConnection with
              endpointEvents := [{ payload := 0, drained := true }] },
    is_dirty := true, timer_handle := none, timer_deadline := none, closed := none,
    woken := false }

/-- A state whose only connection is dirty and about to drain. -/
def drainedSampleState : EndpointInner :=
  { emptyState with
    connections := { refs := [(4, drainedConn)], close := none },
    dirty := [4] }

def sendSampleTransmit : Transmit :=
  { destination := .V4 ⟨1, 2⟩, src_ip := none, ecn := none, payload := [1],
    segment_size := none }

/-- A state with one queued transmit and a socket that will accept it. -/
def sendSampleState : EndpointInner :=
  { emptyState with
    outgoing := [sendSampleTransmit],
    socket := { emptySocket with sendScript := [.sendOk 1] } }

/-! ## Association-list lemmas -/

theorem alistGet_insert_self (l : List (ConnectionHandle × ConnectionRef))
    (h : ConnectionHandle) (v : ConnectionRef) :
    alistGet (alistInsert l h v) h = some v := by
  induction l with
  | nil => simp [alistInsert, alistGet]
  | cons p rest ih =>
      obtain ⟨k, w⟩ := p
      by_cases hk : k = h
      · simp [alistInsert, alistGet, hk]
      · simp [alistInsert, alistGet, hk, ih]

theorem alistGet_insert_ne (l : List (ConnectionHandle × ConnectionRef))
    (h h' : ConnectionHandle) (v : ConnectionRef) (hne : h ≠ h') :
    alistGet (alistInsert l h v) h' = alistGet l h' := by
  induction l with
  | nil => simp [alistInsert, alistGet, hne]
  | cons p rest ih =>
      obtain ⟨k, w⟩ := p
      by_cases hk : k = h
      · subst hk
        simp [alistInsert, alistGet, hne]
      · simp [alistInsert, alistGet, hk, ih]

theorem alistGet_remove_self (l : List (ConnectionHandle × ConnectionRef))
    (h : ConnectionHandle) : alistGet (alistRemove l h) h = none := by
  induction l with
  | nil => simp [alistRemove, alistGet]
  | cons p rest ih =>
      obtain ⟨k, w⟩ := p
      by_cases hk : k = h
      · simp [alistRemove, hk, ih]
      · simp [alistRemove, alistGet, hk, ih]

theorem alistGet_remove_none (l : List (ConnectionHandle × ConnectionRef))
    (h k : ConnectionHandle) (hnone : alistGet l h = none) :
    alistGet (alistRemove l k) h = none := by
  induction l with
  | nil => simp [alistRemove, alistGet]
  | cons p rest ih =>
      obtain ⟨k', w⟩ := p
      by_cases hk' : k' = h
      · simp [alistGet, hk'] at hnone
      · simp only [alistGet, if_neg hk'] at hnone
        by_cases hkk : k' = k
        · simp [alistRemove, hkk, ih hnone]
        · simp [alistRemove, alistGet, hkk, hk', ih hnone]

theorem alistGet_foldl_remove_none (ds : List ConnectionHandle)
    (l : List (ConnectionHandle × ConnectionRef)) (h : ConnectionHandle)
    (hnone : alistGet l h = none) :
    alistGet (ds.foldl (fun refs k => alistRemove refs k) l) h = none := by
  induction ds generalizing l with
  | nil => simpa using hnone
  | cons a rest ih => exact ih _ (alistGet_remove_none l h a hnone)

theorem alistGet_foldl_remove_mem (ds : List ConnectionHandle)
    (l : List (ConnectionHandle × ConnectionRef)) (h : ConnectionHandle) (hmem : h ∈ ds) :
    alistGet (ds.foldl (fun refs k => alistRemove refs k) l) h = none := by
  induction ds generalizing l with
  | nil => cases hmem
  | cons a rest ih =>
      by_cases ha : h = a
      · subst ha
        exact alistGet_foldl_remove_none rest _ h (alistGet_remove_self l h)
      · rcases List.mem_cons.mp hmem with h1 | h1
        · exact absurd h1 ha
        · exact ih (alistRemove l a) h1

/-! ## C3: polling the `Incoming` stream -/

/-- C3: a poll of the `Incoming` stream yields end-of-stream immediately when
`driver_lost` is set; otherwise it pops and yields the oldest entry of the
incoming queue when one exists; otherwise, if a manual close is recorded, it
yields end-of-stream; otherwise it stores the caller's waker in
`incoming_reader` and suspends — checks in exactly that order, so driver loss
takes precedence over queued connections (no hypothesis on the queue in the
first clause) and queued connections over a recorded close (no hypothesis on
the close slot in the second clause). -/
theorem incoming_poll_spec (st : EndpointInner) (cx : Nat) :
    (st.driver_lost = true → Incoming.poll cx st = (.readyNone, st)) ∧
    (st.driver_lost = false → ∀ c rest, st.incoming = c :: rest →
      Incoming.poll cx st = (.readySome c, { st with incoming := rest })) ∧
    (st.driver_lost = false → st.incoming = [] → st.connections.close.isSome = true →
      Incoming.poll cx st = (.readyNone, st)) ∧
    (st.driver_lost = false → st.incoming = [] → st.connections.close = none →
      Incoming.poll cx st = (.stillPending, { st with incoming_reader := some cx })) := by
  refine ⟨fun h => ?_, fun h c rest hq => ?_, fun h hq hc => ?_, fun h hq hc => ?_⟩
  · simp [Incoming.poll, h]
  · simp [Incoming.poll, h, hq]
  · simp [Incoming.poll, h, hq, hc]
  · simp [Incoming.poll, h, hq, hc]

theorem incoming_poll_spec_witness :
    Incoming.poll 7 emptyState =
      (.stillPending, { emptyState with incoming_reader := some 7 }) :=
  (incoming_poll_spec emptyState 7).2.2.2 rfl rfl rfl

/-! ## C7: receive-error handling -/

/-- C7: in `drive_recv`, a socket receive error of kind connection-reset is
silently ignored and the receive loop continues polling (without consulting
the work limiter), while a receive error of any other kind is returned from
`drive_recv`, terminating the driver with that error. -/
theorem drive_recv_error_spec (st : EndpointInner) :
    (∀ rest, st.socket.recvScript = RecvRes.recvErr .connectionReset :: rest →
      driveRecvStep st = .again { st with socket := { st.socket with recvScript := rest } }) ∧
    (∀ e rest, st.socket.recvScript = RecvRes.recvErr e :: rest →
      e ≠ .connectionReset → driveRecvStep st = .done (.ioErr e)) ∧
    (∀ e rest, st.socket.recvScript = RecvRes.recvErr e :: rest →
      e ≠ .connectionReset → st.drive_recv = .ioErr e) ∧
    (∀ rest, st.socket.recvScript = RecvRes.recvErr .connectionReset :: rest →
      st.drive_recv = driveRecvLoop rest.length
        { st with recv_limiter := st.recv_limiter.start_cycle,
                  socket := { st.socket with recvScript := rest } }) := by
  refine ⟨fun rest hs => ?_, fun e rest hs he => ?_, fun e rest hs he => ?_,
    fun rest hs => ?_⟩
  · simp [driveRecvStep, AsyncUdpSocket.poll_recv, hs]
  · simp [driveRecvStep, AsyncUdpSocket.poll_recv, hs, he]
  · simp only [EndpointInner.drive_recv, hs, List.length_cons]
    simp [driveRecvLoop, driveRecvStep, AsyncUdpSocket.poll_recv, hs, he]
  · simp only [EndpointInner.drive_recv, hs, List.length_cons]
    simp [driveRecvLoop, driveRecvStep, AsyncUdpSocket.poll_recv, hs]

theorem drive_recv_error_spec_witness :
    ({ emptyState with
        socket := { emptySocket with recvScript := [.recvErr (.other 3)] } } :
      EndpointInner).drive_recv = .ioErr (.other 3) :=
  (drive_recv_error_spec _).2.2.1 (.other 3) [] rfl (by decide)

/-! ## C8: `EndpointRef` clone and drop -/

/-- C8 (amended): cloning an `EndpointRef` increments `ref_count` by one;
dropping decrements it by one when it is positive and — because of the
`checked_sub` guard — leaves it unchanged at zero; a drop that brings
`ref_count` from one to zero takes the stored driver waker and wakes it, and
a drop from a count of two or more touches neither the waker slot nor the
wake log. -/
theorem endpointRef_clone_drop_spec (st : EndpointInner) :
    ((EndpointRef.clone st).ref_count = st.ref_count + 1) ∧
    (∀ n, st.ref_count = n + 1 → (EndpointRef.drop st).ref_count = n) ∧
    (st.ref_count = 0 → EndpointRef.drop st = st) ∧
    (∀ w, st.ref_count = 1 → st.driver = some w →
      (EndpointRef.drop st).driver = none ∧
      (EndpointRef.drop st).woken_wakers = st.woken_wakers ++ [w]) ∧
    (∀ n, st.ref_count = n + 2 →
      (EndpointRef.drop st).driver = st.driver ∧
      (EndpointRef.drop st).woken_wakers = st.woken_wakers) := by
  refine ⟨rfl, fun n hn => ?_, fun h0 => ?_, fun w h1 hw => ?_, fun n hn => ?_⟩
  · rcases n with _ | m
    · cases hd : st.driver <;> simp [EndpointRef.drop, hn, hd]
    · simp [EndpointRef.drop, hn]
  · simp [EndpointRef.drop, h0]
  · simp [EndpointRef.drop, h1, hw]
  · simp [EndpointRef.drop, hn]

theorem endpointRef_clone_drop_spec_witness :
    (EndpointRef.drop { emptyState with ref_count := 1, driver := some 5 }).ref_count = 0 ∧
    (EndpointRef.drop { emptyState with ref_count := 1, driver := some 5 }).driver = none ∧
    (EndpointRef.drop { emptyState with ref_count := 1, driver := some 5 }).woken_wakers = [5] := by
  have h := endpointRef_clone_drop_spec { emptyState with ref_count := 1, driver := some 5 }
  exact ⟨h.2.1 0 rfl, (h.2.2.2.1 5 rfl rfl).1, (h.2.2.2.1 5 rfl rfl).2⟩

/-- C8 counterexample: the claim says every drop decrements `ref_count` by
one, but at `ref_count = 0` (the quiescent state every endpoint starts in,
and the state the driver's own reference drops from after all counted
handles are gone) the drop leaves `ref_count` at zero. -/
theorem endpointRef_drop_decrement_counterexample :
    ¬ ((EndpointRef.drop emptyState).ref_count + 1 = emptyState.ref_count) := by decide

/-! ## C2: `connect` / `connect_with` -/

/-- C2: `connect` returns `NoDefaultClientConfig` when no default client
config is set; `connect_with` returns `EndpointStopping` when `driver_lost`
is set, and `InvalidRemoteAddress` when the requested address family is
unreachable from this socket (an IPv6 destination on a non-IPv6 socket; an
IPv4 destination on an IPv6 socket is instead rewritten); on an IPv6 socket
the destination handed to the proto-endpoint is always the `ensure_ipv6`
form, which maps an IPv4 address to its IPv6-mapped form; on success the new
connection is inserted into the connection set and a `Connecting` future for
its handle is returned. -/
theorem endpoint_connect_spec (e : Endpoint) (addr : SocketAddr) (name : String)
    (config : ClientConfig) :
    (e.default_client_config = none →
      e.connect addr name = .error .NoDefaultClientConfig) ∧
    (e.inner.driver_lost = true →
      e.connect_with config addr name = .error .EndpointStopping) ∧
    (e.inner.driver_lost = false → addr.is_ipv6 = true → e.inner.ipv6 = false →
      e.connect_with config addr name = .error (.InvalidRemoteAddress addr)) ∧
    (∀ x, ensure_ipv6 (SocketAddr.V4 x) =
      ⟨to_ipv6_mapped x.ip, x.port, 0, 0⟩) ∧
    (∀ ch conn, e.inner.driver_lost = false → e.inner.ipv6 = true →
      e.inner.inner.connectResult = .success ch conn →
      ∃ st1, e.connect_with config addr name = .ok (⟨ch⟩, st1) ∧
        st1.inner.connectCalledWith =
          e.inner.inner.connectCalledWith ++ [SocketAddr.V6 (ensure_ipv6 addr)] ∧
        (alistGet st1.connections.refs ch).isSome = true) := by
  refine ⟨fun hc => ?_, fun hd => ?_, fun hd ha hi => ?_, fun x => rfl,
    fun ch conn hd hi hcr => ?_⟩
  · simp [Endpoint.connect, hc]
  · simp [Endpoint.connect_with, hd]
  · simp [Endpoint.connect_with, hd, ha, hi]
  · simp only [Endpoint.connect_with, hd, hi, ProtoEndpoint.connect, hcr,
      Bool.not_true, Bool.and_false, Bool.false_eq_true, if_false, if_true,
      ite_true, ite_false]
    refine ⟨_, rfl, by simp, ?_⟩
    simp [ConnectionSet.insert, Connecting.new, alistGet_insert_self]

theorem endpoint_connect_spec_witness :
    ∃ st1,
      connectSampleEndpoint.connect_with 0 (.V4 ⟨1, 443⟩) "localhost" = .ok (⟨2⟩, st1) ∧
      st1.inner.connectCalledWith = [SocketAddr.V6 (ensure_ipv6 (.V4 ⟨1, 443⟩))] ∧
      (alistGet st1.connections.refs 2).isSome = true := by
  simpa using (endpoint_connect_spec connectSampleEndpoint
    (.V4 ⟨1, 443⟩) "localhost" 0).2.2.2.2 2 emptyProtoConnection rfl rfl rfl

/-! ## C5: `Endpoint::close` -/

/-- Initiating a second close on a connection never changes it again: the
first close fixed its terminal code/reason and already woke it. -/
theorem ConnectionRef.close_close (c : ConnectionRef) (a : VarInt) (r : ByteSeq)
    (a' : VarInt) (r' : ByteSeq) :
    (c.close a r).close a' r' = c.close a r := by
  cases hc : c.closed <;> simp [ConnectionRef.close, hc]

theorem alistGet_map_close (l : List (ConnectionHandle × ConnectionRef))
    (h : ConnectionHandle) (a : VarInt) (r : ByteSeq) :
    alistGet (l.map (fun (p : ConnectionHandle × ConnectionRef) =>
      (p.1, p.2.close a r))) h =
      (alistGet l h).map (fun c => c.close a r) := by
  induction l with
  | nil => simp [alistGet]
  | cons p rest ih =>
      obtain ⟨k, w⟩ := p
      by_cases hk : k = h <;> simp [alistGet, hk, ih]

theorem endpoint_close_close_slot (st : EndpointInner) (c : VarInt) (r : ByteSeq) :
    (Endpoint.close st c r).connections.close = some (c, r) := by
  cases hir : st.incoming_reader <;> simp [Endpoint.close, hir]

theorem endpoint_close_reader_none (st : EndpointInner) (c : VarInt) (r : ByteSeq) :
    (Endpoint.close st c r).incoming_reader = none := by
  cases hir : st.incoming_reader <;> simp [Endpoint.close, hir]

theorem endpoint_close_driver_lost (st : EndpointInner) (c : VarInt) (r : ByteSeq) :
    (Endpoint.close st c r).driver_lost = st.driver_lost := by
  cases hir : st.incoming_reader <;> simp [Endpoint.close, hir]

theorem endpoint_close_incoming (st : EndpointInner) (c : VarInt) (r : ByteSeq) :
    (Endpoint.close st c r).incoming = st.incoming := by
  cases hir : st.incoming_reader <;> simp [Endpoint.close, hir]

/-- A second `close`, with any arguments, only overwrites the recorded close
slot: every previously closed connection keeps its terminal state, the accept
consumer was already woken and unparked, and the handle map is untouched. -/
theorem endpoint_close_comp (st : EndpointInner) (c : VarInt) (r : ByteSeq)
    (c' : VarInt) (r' : ByteSeq) :
    Endpoint.close (Endpoint.close st c r) c' r' =
      { Endpoint.close st c r with connections :=
          { (Endpoint.close st c r).connections with close := some (c', r') } } := by
  cases hir : st.incoming_reader <;>
    simp [Endpoint.close, hir, List.map_map, Function.comp, ConnectionRef.close_close]

/-- C5: `close(c, r)` records `(c, r)` as the pending close, invokes close
with that code and reason on every connection in the set, and wakes the
accept-stream consumer; repeating `close(c, r)` is a no-op, any further
`close(c', r')` only overwrites the recorded pending-close slot — in
particular the accept stream observes the same terminal answers — and every
connection inserted after a close has the recorded close applied at
insertion. -/
theorem endpoint_close_spec (st : EndpointInner) (c : VarInt) (r : ByteSeq) :
    ((Endpoint.close st c r).connections.close = some (c, r)) ∧
    (∀ h conn, alistGet st.connections.refs h = some conn →
      alistGet (Endpoint.close st c r).connections.refs h = some (conn.close c r)) ∧
    (∀ w, st.incoming_reader = some w →
      (Endpoint.close st c r).incoming_reader = none ∧
      (Endpoint.close st c r).woken_wakers = st.woken_wakers ++ [w]) ∧
    (Endpoint.close (Endpoint.close st c r) c r = Endpoint.close st c r) ∧
    (∀ c' r', Endpoint.close (Endpoint.close st c r) c' r' =
      { Endpoint.close st c r with connections :=
          { (Endpoint.close st c r).connections with close := some (c', r') } }) ∧
    (∀ c' r' cx, (Incoming.poll cx (Endpoint.close (Endpoint.close st c r) c' r')).1 =
      (Incoming.poll cx (Endpoint.close st c r)).1) ∧
    (∀ h conn,
      alistGet ((Endpoint.close st c r).connections.insert h conn).2.refs h =
        some (((Connecting.new h conn).2).close c r)) := by
  refine ⟨endpoint_close_close_slot st c r, fun h conn hget => ?_,
    fun w hw => ?_, ?_, endpoint_close_comp st c r, fun c' r' cx => ?_,
    fun h conn => ?_⟩
  · cases hir : st.incoming_reader <;>
      simp [Endpoint.close, hir, alistGet_map_close, hget]
  · simp [Endpoint.close, hw]
  · rw [endpoint_close_comp st c r c r]
    cases hir : st.incoming_reader <;> simp [Endpoint.close, hir]
  · rw [endpoint_close_comp st c r c' r']
    rcases hdl : (Endpoint.close st c r).driver_lost with _ | _ <;>
      rcases hi : (Endpoint.close st c r).incoming with _ | ⟨c0, rest⟩ <;>
        simp [Incoming.poll, hdl, hi, endpoint_close_close_slot st c r]
  · simp [ConnectionSet.insert, endpoint_close_close_slot st c r, alistGet_insert_self]

theorem endpoint_close_spec_witness :
    alistGet (Endpoint.close closeSampleState 7 [98, 121, 101]).connections.refs 4 =
      some (sampleConn.close 7 [98, 121, 101]) ∧
    (Endpoint.close closeSampleState 7 [98, 121, 101]).incoming_reader = none ∧
    (Endpoint.close closeSampleState 7 [98, 121, 101]).woken_wakers = [9] := by
  have h := endpoint_close_spec closeSampleState 7 [98, 121, 101]
  refine ⟨h.2.1 4 sampleConn rfl, (h.2.2.1 9 rfl).1, ?_⟩
  have hw := (h.2.2.1 9 rfl).2
  simpa using hw

/-! ## C9: the `unwrap` on the connection-event path -/

/-- `handleSegment` can only abort, and it aborts exactly when the
proto-endpoint routes the segment to a connection event whose handle is
missing from the connection set. -/
theorem handleSegment_aborted_iff (st : EndpointInner) (seg : ByteSeq) :
    handleSegment st seg = .aborted ↔
      ∃ handle event rest,
        st.inner.handleScript = some (handle, DatagramEvent.ConnectionEvent event) :: rest ∧
        alistGet st.connections.refs handle = none := by
  rcases hs : st.inner.handleScript with _ | ⟨ho, rest⟩
  · simp [handleSegment, ProtoEndpoint.handleCall, hs]
  · rcases ho with _ | ⟨handle, ev⟩
    · simp [handleSegment, ProtoEndpoint.handleCall, hs]
    · rcases ev with conn | event
      · simp [handleSegment, ProtoEndpoint.handleCall, hs]
      · rcases hg : alistGet st.connections.refs handle with _ | conn
        · constructor
          · intro _
            exact ⟨handle, event, rest, rfl, hg⟩
          · intro _
            simp [handleSegment, ProtoEndpoint.handleCall, hs, hg]
        · constructor
          · intro hbad
            have hne : handleSegment st seg ≠ .aborted := by
              simp [handleSegment, ProtoEndpoint.handleCall, hs, hg]
            exact absurd hbad hne
          · rintro ⟨h', e', r', hscript, hget⟩
            simp only [List.cons.injEq, Option.some.injEq, Prod.mk.injEq,
              DatagramEvent.ConnectionEvent.injEq] at hscript
            obtain ⟨⟨hh, he⟩, hr⟩ := hscript
            subst hh
            rw [hg] at hget
            cases hget

/-- C9: the `.unwrap()` in `drive_recv`'s connection-event path aborts exactly
when the routed handle is absent from `connections.refs` (i.e. not inserted,
or already retired); with the handle present the event is delivered and the
connection woken.  In contrast, the timer path and the dirty path of
`drive_connections` skip a missing handle without effect. -/
theorem connection_event_unwrap_spec :
    (∀ st seg, handleSegment st seg = .aborted ↔
      ∃ handle event rest,
        st.inner.handleScript = some (handle, DatagramEvent.ConnectionEvent event) :: rest ∧
        alistGet st.connections.refs handle = none) ∧
    (∀ st seg handle event rest conn,
      st.inner.handleScript = some (handle, DatagramEvent.ConnectionEvent event) :: rest →
      alistGet st.connections.refs handle = some conn →
      handleSegment st seg ≠ .aborted ∧
      (∀ st1, handleSegment st seg = .ok st1 →
        alistGet st1.connections.refs handle = some
          { conn with
            conn := { conn.conn with handledEvents := conn.conn.handledEvents ++ [event] },
            woken := true })) ∧
    (∀ st rest h, alistGet st.connections.refs h = none →
      driveTimersLoop (h :: rest) st = driveTimersLoop rest st) ∧
    (∀ st h k d, alistGet st.connections.refs h = none →
      processOne st h k d = (k, d, st)) := by
  refine ⟨handleSegment_aborted_iff, fun st seg handle event rest conn hs hg => ?_,
    fun st rest h hg => ?_, fun st h k d hg => ?_⟩
  · constructor
    · simp [handleSegment, ProtoEndpoint.handleCall, hs, hg]
    · intro st1 h1
      simp only [handleSegment, ProtoEndpoint.handleCall, hs, hg] at h1
      injection h1 with h2
      subst h2
      simp [alistGet_insert_self]
  · simp [driveTimersLoop, hg]
  · simp [processOne, hg]

theorem connection_event_unwrap_spec_witness :
    handleSegment
      { emptyState with
        inner := { emptyProtoEndpoint with
                   handleScript := [some (3, .ConnectionEvent 1)] } } [9] = .aborted :=
  (connection_event_unwrap_spec.1 _ [9]).mpr ⟨3, 1, [], rfl, rfl⟩

/-! ## C10: the GRO segmentation loop -/

/-- `handleSegment` with an exhausted routing script discards the datagram
and leaves the state untouched. -/
theorem handleSegment_emptyScript (st : EndpointInner) (seg : ByteSeq)
    (h : st.inner.handleScript = []) : handleSegment st seg = .ok st := by
  simp [handleSegment, ProtoEndpoint.handleCall, h]

/-- `handleSegment` itself never diverges: only the segmentation loop can. -/
theorem handleSegment_ne_diverged (st : EndpointInner) (seg : ByteSeq) :
    handleSegment st seg ≠ .diverged := by
  rcases hs : st.inner.handleScript with _ | ⟨ho, rest⟩
  · simp [handleSegment, ProtoEndpoint.handleCall, hs]
  · rcases ho with _ | ⟨handle, ev⟩
    · simp [handleSegment, ProtoEndpoint.handleCall, hs]
    · rcases ev with conn | event
      · simp [handleSegment, ProtoEndpoint.handleCall, hs]
      · rcases hg : alistGet st.connections.refs handle with _ | conn <;>
          simp [handleSegment, ProtoEndpoint.handleCall, hs, hg]

/-- With a positive stride, fuel equal to the payload length suffices: each
iteration strips at least one byte. -/
theorem recvSegLoop_ne_diverged (stride : Nat) (hstride : 1 ≤ stride) :
    ∀ fuel (st : EndpointInner) (data : ByteSeq), data.length ≤ fuel →
      recvSegLoop stride fuel st data ≠ .diverged := by
  intro fuel
  induction fuel with
  | zero =>
      intro st data hlen
      have hdata : data = [] := List.length_eq_zero.mp (Nat.le_zero.mp hlen)
      subst hdata
      simp [recvSegLoop]
  | succ fuel ih =>
      intro st data hlen
      rcases data with _ | ⟨b, bs⟩
      · simp [recvSegLoop]
      · simp only [recvSegLoop]
        rcases hh : handleSegment st ((b :: bs).take (min stride (b :: bs).length)) with
          st1 | e | _ | _
        · simp only
          apply ih
          have h1 : 1 ≤ min stride (b :: bs).length := by
            simp [Nat.le_min]
            omega
          simp only [List.length_drop]
          simp only [List.length_cons] at hlen ⊢
          omega
        · simp
        · simp
        · exact absurd hh (handleSegment_ne_diverged st _)

/-- With stride zero and a non-panicking (exhausted) routing script, the loop
makes no progress and exhausts any fuel. -/
theorem recvSegLoop_stride_zero_diverged :
    ∀ fuel (st : EndpointInner) (data : ByteSeq), data ≠ [] →
      st.inner.handleScript = [] →
      recvSegLoop 0 fuel st data = .diverged := by
  intro fuel
  induction fuel with
  | zero =>
      intro st data hne _
      rcases data with _ | ⟨b, bs⟩
      · exact absurd rfl hne
      · simp [recvSegLoop]
  | succ fuel ih =>
      intro st data hne hscript
      rcases data with _ | ⟨b, bs⟩
      · exact absurd rfl hne
      · simp only [recvSegLoop]
        rw [handleSegment_emptyScript st _ hscript]
        simpa using ih st (b :: bs) hne hscript

/-- C10: the GRO segmentation loop consumes `min(stride, remaining)` bytes of
the payload per iteration; with `stride ≥ 1` fuel equal to the payload length
always suffices (the loop terminates), while a message with `stride = 0` and
a non-empty payload makes the loop — and hence `drive_recv` — diverge, so
termination of `drive_recv` presupposes that every message's reported stride
is at least 1. -/
theorem gro_segmentation_spec :
    (∀ stride fuel (st : EndpointInner) (b : Nat) (bs : ByteSeq),
      recvSegLoop stride (fuel + 1) st (b :: bs) =
        (match handleSegment st ((b :: bs).take (min stride (b :: bs).length)) with
         | .ok st1 => recvSegLoop stride fuel st1 ((b :: bs).drop (min stride (b :: bs).length))
         | .ioErr e => .ioErr e
         | .aborted => .aborted
         | .diverged => .diverged)) ∧
    (∀ stride fuel (st : EndpointInner) (data : ByteSeq), 1 ≤ stride →
      data.length ≤ fuel → recvSegLoop stride fuel st data ≠ .diverged) ∧
    (∀ fuel (st : EndpointInner) (data : ByteSeq), data ≠ [] →
      st.inner.handleScript = [] → recvSegLoop 0 fuel st data = .diverged) ∧
    (∀ (st : EndpointInner) (msg : RecvMsg) rest,
      st.socket.recvScript = RecvRes.recvOk [msg] :: rest → msg.stride = 0 →
      msg.payload ≠ [] → st.inner.handleScript = [] →
      st.drive_recv = .diverged) := by
  refine ⟨fun stride fuel st b bs => rfl,
    fun stride fuel st data h1 h2 => recvSegLoop_ne_diverged stride h1 fuel st data h2,
    recvSegLoop_stride_zero_diverged,
    fun st msg rest hs hstride hpay hscript => ?_⟩
  simp only [EndpointInner.drive_recv, hs, List.length_cons]
  simp only [driveRecvLoop, driveRecvStep, AsyncUdpSocket.poll_recv, hs]
  simp only [processMsgs, processMsg, hstride]
  rw [recvSegLoop_stride_zero_diverged msg.payload.length
      { st with socket := { st.socket with recvScript := rest },
                recv_limiter := st.recv_limiter.start_cycle.record_work [msg].length }
      msg.payload hpay hscript]

theorem gro_segmentation_spec_witness :
    ({ emptyState with
        socket := { emptySocket with
                    recvScript := [.recvOk [{ addr := .V4 ⟨1, 2⟩, dst_ip := none,
                                              ecn := none, stride := 0,
                                              payload := [9, 9] }]] } } :
      EndpointInner).drive_recv = .diverged := by
  exact gro_segmentation_spec.2.2.2 _
    { addr := .V4 ⟨1, 2⟩, dst_ip := none, ecn := none, stride := 0, payload := [9, 9] }
    [] rfl rfl (by decide) rfl

/-! ## C6: the send pump -/

/-- Top-up postcondition: after the top-up loop, `outgoing` holds at least
`BATCH_SIZE` transmits or the proto-endpoint has no more to offer. -/
theorem topUpLoop_post (fuel : Nat) :
    ∀ st : EndpointInner, st.inner.transmitQueue.length ≤ fuel →
      BATCH_SIZE ≤ (topUpLoop fuel st).outgoing.length ∨
        (topUpLoop fuel st).inner.transmitQueue = [] := by
  induction fuel with
  | zero =>
      intro st hq
      right
      simpa using List.length_eq_zero.mp (Nat.le_zero.mp hq)
  | succ fuel ih =>
      intro st hq
      by_cases hlen : st.outgoing.length < BATCH_SIZE
      · rcases hqq : st.inner.transmitQueue with _ | ⟨x, rest⟩
        · right
          simp [topUpLoop, hlen, hqq]
        · have hrest : rest.length ≤ fuel := by
            rw [hqq] at hq
            simpa using hq
          have := ih { st with outgoing := st.outgoing ++ [x],
                               inner := { st.inner with transmitQueue := rest } } hrest
          simpa [topUpLoop, hlen, hqq] using this
      · left
        simp [topUpLoop, hlen]
        omega

/-- C6: each `drive_send` iteration first tops up `outgoing` from
`poll_transmit` until it holds at least `BATCH_SIZE` entries or the
proto-endpoint offers no more; it returns `false` when `outgoing` is then
empty; returns `true` when the work limiter forbids further work; otherwise
it submits the contiguous front slice of `outgoing` to `poll_send` and, on
success with count `n`, drops exactly the first `n` transmits and records `n`
units of work before looping, returns `false` on pending, and surfaces a send
error — which `drive_send` returns as its own result. -/
theorem drive_send_spec (st stT : EndpointInner) (hT : topUp st = stT) :
    (BATCH_SIZE ≤ stT.outgoing.length ∨ stT.inner.transmitQueue = []) ∧
    (stT.outgoing.isEmpty = true → driveSendStep st = .done (.ok (false, stT))) ∧
    (∀ lim, stT.outgoing.isEmpty = false →
      stT.send_limiter.allow_work = (false, lim) →
      driveSendStep st = .done (.ok (true, { stT with send_limiter := lim }))) ∧
    (∀ lim n rest, stT.outgoing.isEmpty = false →
      stT.send_limiter.allow_work = (true, lim) →
      stT.socket.sendScript = SendRes.sendOk n :: rest →
      driveSendStep st = .again
        { stT with
          outgoing := stT.outgoing.drop n,
          send_limiter := lim.record_work n,
          socket := { stT.socket with sendScript := rest,
                                      sent := stT.socket.sent ++ [stT.outgoing] } }) ∧
    (∀ lim rest, stT.outgoing.isEmpty = false →
      stT.send_limiter.allow_work = (true, lim) →
      stT.socket.sendScript = SendRes.sendPending :: rest →
      driveSendStep st = .done (.ok (false,
        { stT with
          send_limiter := lim,
          socket := { stT.socket with sendScript := rest,
                                      sent := stT.socket.sent ++ [stT.outgoing] } }))) ∧
    (∀ lim e rest, stT.outgoing.isEmpty = false →
      stT.send_limiter.allow_work = (true, lim) →
      stT.socket.sendScript = SendRes.sendErr e :: rest →
      driveSendStep st = .done (.ioErr e)) ∧
    (∀ fuel st', driveSendLoop (fuel + 1) st' =
      (match driveSendStep st' with
       | .done r => r
       | .again st1 => driveSendLoop fuel st1)) ∧
    (∀ e, driveSendStep { st with send_limiter := st.send_limiter.start_cycle } =
        .done (.ioErr e) →
      st.drive_send = .ioErr e) := by
  subst hT
  refine ⟨by exact topUpLoop_post _ st le_rfl, fun hemp => ?_, fun lim hemp haw => ?_,
    fun lim n rest hemp haw hsc => ?_, fun lim rest hemp haw hsc => ?_,
    fun lim e rest hemp haw hsc => ?_, fun fuel st' => rfl, fun e hstep => ?_⟩
  · simp [driveSendStep, hemp]
  · simp [driveSendStep, hemp, haw]
  · simp [driveSendStep, hemp, haw, AsyncUdpSocket.poll_send, hsc]
  · simp [driveSendStep, hemp, haw, AsyncUdpSocket.poll_send, hsc]
  · simp [driveSendStep, hemp, haw, AsyncUdpSocket.poll_send, hsc]
  · rcases hfuel : ({ st with send_limiter := st.send_limiter.start_cycle } :
        EndpointInner).socket.sendScript.length with _ | fuel <;>
      simp [EndpointInner.drive_send, hfuel, driveSendLoop, hstep]

theorem drive_send_spec_witness :
    driveSendStep sendSampleState = .again
      { sendSampleState with
        outgoing := [],
        send_limiter := { allowScript := [], work := 1 },
        socket := { recvScript := [], sendScript := [], sent := [[sendSampleTransmit]] } } := by
  have h := (drive_send_spec sendSampleState sendSampleState
    rfl).2.2.2.1 emptyLimiter 1 [] rfl rfl rfl
  exact h

/-! ## C4: drained retirement and the idle signal -/

/-- The timer loop never touches a connection's pending endpoint events. -/
theorem driveTimersLoop_events (l : List ConnectionHandle) :
    ∀ (st : EndpointInner) (h : ConnectionHandle),
      (alistGet (driveTimersLoop l st).connections.refs h).map
          (fun c => c.conn.endpointEvents) =
        (alistGet st.connections.refs h).map (fun c => c.conn.endpointEvents) := by
  induction l with
  | nil => intro st h; rfl
  | cons a rest ih =>
      intro st h
      rcases hg : alistGet st.connections.refs a with _ | conn
      · simp [driveTimersLoop, hg, ih]
      · simp only [driveTimersLoop, hg]
        rw [ih]
        by_cases hah : a = h
        · subst hah
          simp [alistGet_insert_self, hg]
        · simp [alistGet_insert_ne _ _ _ _ hah]

/-- The timer loop leaves the dirty channel and buffer untouched. -/
theorem driveTimersLoop_dirty (l : List ConnectionHandle) :
    ∀ st : EndpointInner, (driveTimersLoop l st).dirty = st.dirty ∧
      (driveTimersLoop l st).dirty_buffer = st.dirty_buffer := by
  induction l with
  | nil => intro st; exact ⟨rfl, rfl⟩
  | cons a rest ih =>
      intro st
      rcases hg : alistGet st.connections.refs a with _ | conn <;>
        simp [driveTimersLoop, hg, ih]

/-- The event drain only ever appends to the drained list. -/
theorem processEvents_drained_mono (ch : ConnectionHandle) (evs : List EndpointEvent) :
    ∀ (pe : ProtoEndpoint) (conn : ConnectionRef) (drained : List ConnectionHandle)
      (kcg : Bool) (x : ConnectionHandle), x ∈ drained →
      x ∈ (processEvents ch evs pe conn drained kcg).2.2.1 := by
  induction evs with
  | nil => intro pe conn drained kcg x hx; simpa using hx
  | cons e rest ih =>
      intro pe conn drained kcg x hx
      have hx' : x ∈ (if e.is_drained then drained ++ [ch] else drained) := by
        by_cases hd : e.is_drained <;> simp [hd, hx]
      simp only [processEvents]
      rcases hr : pe.handleEventCall.1 with _ | reply
      · simpa [hr] using ih _ _ _ _ x hx'
      · simpa [hr] using ih _ _ _ _ x hx'

/-- A drained marker among the drained events puts the handle on the drained
list. -/
theorem processEvents_drained_self (ch : ConnectionHandle) (evs : List EndpointEvent) :
    ∀ (pe : ProtoEndpoint) (conn : ConnectionRef) (drained : List ConnectionHandle)
      (kcg : Bool), (∃ e ∈ evs, e.is_drained = true) →
      ch ∈ (processEvents ch evs pe conn drained kcg).2.2.1 := by
  induction evs with
  | nil =>
      rintro pe conn drained kcg ⟨e, he, _⟩
      cases he
  | cons e rest ih =>
      rintro pe conn drained kcg ⟨e', he', hd⟩
      rcases List.mem_cons.mp he' with rfl | hmem
      · have hch : ch ∈ (if e'.is_drained then drained ++ [ch] else drained) := by
          simp [hd]
        simp only [processEvents]
        rcases hr : pe.handleEventCall.1 with _ | reply
        · simpa [hr] using processEvents_drained_mono ch rest _ _ _ _ ch hch
        · simpa [hr] using processEvents_drained_mono ch rest _ _ _ _ ch hch
      · simp only [processEvents]
        rcases hr : pe.handleEventCall.1 with _ | reply
        · simpa [hr] using ih _ _ _ _ ⟨e', hmem, hd⟩
        · simpa [hr] using ih _ _ _ _ ⟨e', hmem, hd⟩

/-- Processing one dirty handle only ever appends to the drained list. -/
theorem processOne_drained_mono (st : EndpointInner) (a : ConnectionHandle)
    (k : Bool) (d : List ConnectionHandle) (x : ConnectionHandle) (hx : x ∈ d) :
    x ∈ (processOne st a k d).2.1 := by
  rcases hg : alistGet st.connections.refs a with _ | conn
  · simpa [processOne, hg] using hx
  · simp only [processOne, hg]
    exact processEvents_drained_mono _ _ _ _ _ _ x hx

/-- Processing a dirty handle whose connection has a drained endpoint event
puts that handle on the drained list. -/
theorem processOne_drained_self (st : EndpointInner) (a : ConnectionHandle)
    (k : Bool) (d : List ConnectionHandle) (conn : ConnectionRef)
    (hg : alistGet st.connections.refs a = some conn)
    (hd : ∃ e ∈ conn.conn.endpointEvents, e.is_drained = true) :
    a ∈ (processOne st a k d).2.1 := by
  simp only [processOne, hg]
  rcases hpt : conn.conn.pollTimeoutVal with _ | deadline <;> simp only [hpt]
  · exact processEvents_drained_self _ _ _ _ _ _ hd
  · split
    · rcases hth : conn.timer_handle with _ | key <;> simp only [hth]
      · exact processEvents_drained_self _ _ _ _ _ _ hd
      · exact processEvents_drained_self _ _ _ _ _ _ hd
    · exact processEvents_drained_self _ _ _ _ _ _ hd

/-- Processing one dirty handle does not change another handle's pending
endpoint events. -/
theorem processOne_events_other (st : EndpointInner) (a : ConnectionHandle)
    (k : Bool) (d : List ConnectionHandle) (h : ConnectionHandle) (hha : h ≠ a) :
    (alistGet (processOne st a k d).2.2.connections.refs h).map
        (fun c => c.conn.endpointEvents) =
      (alistGet st.connections.refs h).map (fun c => c.conn.endpointEvents) := by
  have hane : a ≠ h := fun hh => hha hh.symm
  rcases hg : alistGet st.connections.refs a with _ | conn
  · simp [processOne, hg]
  · simp only [processOne, hg]
    rcases hpt : conn.conn.pollTimeoutVal with _ | deadline <;> simp only [hpt]
    · simp [alistGet_insert_ne _ _ _ _ hane]
    · split
      · rcases hth : conn.timer_handle with _ | key <;>
          simp [hth, alistGet_insert_ne _ _ _ _ hane]
      · simp [alistGet_insert_ne _ _ _ _ hane]

/-- The dirty-processing loop collects every processed handle whose
connection had a drained event pending at loop entry. -/
theorem processDirtyList_drained (buf : List ConnectionHandle) :
    ∀ (k : Bool) (d : List ConnectionHandle) (st : EndpointInner)
      (h : ConnectionHandle),
      (h ∈ d ∨ (h ∈ buf ∧ ∃ conn, alistGet st.connections.refs h = some conn ∧
        ∃ e ∈ conn.conn.endpointEvents, e.is_drained = true)) →
      h ∈ (processDirtyList buf k d st).2.1 := by
  induction buf with
  | nil =>
      rintro k d st h (hx | ⟨hmem, _⟩)
      · simpa using hx
      · cases hmem
  | cons a rest ih =>
      rintro k d st h (hx | ⟨hmem, conn, hget, hdr⟩)
      · simp only [processDirtyList]
        exact ih _ _ _ h (Or.inl (processOne_drained_mono st a k d h hx))
      · by_cases hha : h = a
        · subst hha
          simp only [processDirtyList]
          exact ih _ _ _ h (Or.inl (processOne_drained_self st h k d conn hget hdr))
        · rcases List.mem_cons.mp hmem with hbad | hmem'
          · exact absurd hbad hha
          · simp only [processDirtyList]
            apply ih _ _ _ h
            right
            refine ⟨hmem', ?_⟩
            have hpres := processOne_events_other st a k d h hha
            rw [hget] at hpres
            rcases hg2 : alistGet (processOne st a k d).2.2.connections.refs h with _ | conn'
            · rw [hg2] at hpres
              cases hpres
            · rw [hg2] at hpres
              refine ⟨conn', rfl, ?_⟩
              simp only [Option.map_some'] at hpres
              obtain ⟨e, he, hde⟩ := hdr
              injection hpres with hpres'
              rw [hpres']
              exact ⟨e, he, hde⟩

/-- The result refs of `drive_connections` are the pre-retirement refs with
every drained handle removed. -/
theorem drive_connections_refs (st : EndpointInner) :
    (st.drive_connections).2.connections.refs =
      (processDirtyList ((driveTimers st).dirty_buffer ++ (driveTimers st).dirty) false []
          { driveTimers st with dirty := [], dirty_buffer := [] }).2.1.foldl
        (fun refs k => alistRemove refs k)
        (processDirtyList ((driveTimers st).dirty_buffer ++ (driveTimers st).dirty) false []
            { driveTimers st with dirty := [], dirty_buffer := [] }).2.2.connections.refs := by
  simp only [EndpointInner.drive_connections]
  split <;> rfl

/-- C4: every connection processed during a `drive_connections` pass whose
`poll_endpoint_events` yields a drained event has its handle removed from
`connections.refs` before the pass returns; and whenever the pass leaves the
connection set empty — in particular when it retires the last connection of a
previously non-empty set — the idle waiters are notified. -/
theorem drive_connections_drained_spec (st : EndpointInner) (h : ConnectionHandle) :
    (∀ conn, h ∈ st.dirty_buffer ++ st.dirty →
      alistGet st.connections.refs h = some conn →
      (∃ e ∈ conn.conn.endpointEvents, e.is_drained = true) →
      alistGet (st.drive_connections).2.connections.refs h = none) ∧
    ((st.drive_connections).2.connections.refs = [] →
      (st.drive_connections).2.idle_notified = true) ∧
    (st.connections.refs ≠ [] → (st.drive_connections).2.connections.refs = [] →
      (st.drive_connections).2.idle_notified = true) := by
  have hidle : (st.drive_connections).2.connections.refs = [] →
      (st.drive_connections).2.idle_notified = true := by
    intro hrefs
    rw [drive_connections_refs] at hrefs
    simp only [EndpointInner.drive_connections]
    split
    · rfl
    · next hcond => exact absurd (by simp [ConnectionSet.is_empty, hrefs]) hcond
  refine ⟨fun conn hmem hget hev => ?_, hidle, fun _ => hidle⟩
  have hdirty := driveTimersLoop_dirty st.timers.expired
    { st with timers := { st.timers with expired := [] } }
  have hmemT : h ∈ (driveTimers st).dirty_buffer ++ (driveTimers st).dirty := by
    simp only [driveTimers, hdirty.1, hdirty.2]
    simpa using hmem
  have hTev : (alistGet (driveTimers st).connections.refs h).map
      (fun c => c.conn.endpointEvents) = some conn.conn.endpointEvents := by
    simp only [driveTimers]
    rw [driveTimersLoop_events]
    simp [hget]
  rcases hTg : alistGet (driveTimers st).connections.refs h with _ | conn'
  · rw [hTg] at hTev
    cases hTev
  · rw [hTg] at hTev
    simp only [Option.map_some'] at hTev
    injection hTev with hTev'
    have hdr : h ∈ (processDirtyList
        ((driveTimers st).dirty_buffer ++ (driveTimers st).dirty) false []
        { driveTimers st with dirty := [], dirty_buffer := [] }).2.1 := by
      refine processDirtyList_drained _ false [] _ h (Or.inr ⟨hmemT, conn', ?_, ?_⟩)
      · simpa using hTg
      · rw [hTev']
        exact hev
    rw [drive_connections_refs]
    exact alistGet_foldl_remove_mem _ _ h hdr

theorem drive_connections_drained_spec_witness :
    alistGet (drainedSampleState.drive_connections).2.connections.refs 4 = none ∧
    (drainedSampleState.drive_connections).2.idle_notified = true := by
  have h := drive_connections_drained_spec drainedSampleState 4
  refine ⟨h.1 drainedConn (by decide) rfl
    ⟨{ payload := 0, drained := true }, by decide, rfl⟩, ?_⟩
  exact h.2.2 (by decide) (by decide)

/-! ## C1: one poll of the driver future -/

/-- C1: each driver poll stores its waker if absent, then runs `drive_recv`,
then `drive_connections`, then `drive_send`, OR-ing their `keep_going`
results; an I/O error from `drive_recv` or `drive_send` terminates the future
with that error; with both I/O passes successful the future completes
successfully exactly when the final `ref_count` is zero and the connection
set is empty (proved in both directions), and otherwise returns pending —
self-waking exactly when some pass reported `keep_going`, and suspending
without a self-wake when none did. -/
theorem endpointDriver_poll_spec (st : EndpointInner) (cx : Nat) (st0 : EndpointInner)
    (hst0 : st0 = if st.driver.isNone then { st with driver := some cx } else st) :
    (∀ e, st0.drive_recv = .ioErr e → EndpointDriver.poll cx st = .ioErr e) ∧
    (∀ k1 st1 e, st0.drive_recv = .ok (k1, st1) →
      (st1.drive_connections).2.drive_send = .ioErr e →
      EndpointDriver.poll cx st = .ioErr e) ∧
    (∀ k1 st1 k3 st3, st0.drive_recv = .ok (k1, st1) →
      (st1.drive_connections).2.drive_send = .ok (k3, st3) →
      ((wakeIncomingReader st3).ref_count = 0 ∧
          (wakeIncomingReader st3).connections.refs = [] →
        EndpointDriver.poll cx st = .ok (.readyOk, wakeIncomingReader st3)) ∧
      (¬ ((wakeIncomingReader st3).ref_count = 0 ∧
          (wakeIncomingReader st3).connections.refs = []) →
        (k1 || (st1.drive_connections).1 || k3) = true →
        EndpointDriver.poll cx st = .ok (.pendingWith true,
          { wakeIncomingReader st3 with
            woken_wakers := (wakeIncomingReader st3).woken_wakers ++ [cx] })) ∧
      (¬ ((wakeIncomingReader st3).ref_count = 0 ∧
          (wakeIncomingReader st3).connections.refs = []) →
        (k1 || (st1.drive_connections).1 || k3) = false →
        EndpointDriver.poll cx st = .ok (.pendingWith false, wakeIncomingReader st3))) ∧
    (∀ st', EndpointDriver.poll cx st = .ok (.readyOk, st') →
      st'.ref_count = 0 ∧ st'.connections.refs = []) := by
  subst hst0
  refine ⟨fun e hr => ?_, fun k1 st1 e hr hs => ?_,
    fun k1 st1 k3 st3 hr hs => ?_, fun st' hp => ?_⟩
  · simp only [EndpointDriver.poll, hr]
  · simp only [EndpointDriver.poll, hr, hs]
  · refine ⟨fun hc => ?_, fun hc hk => ?_, fun hc hk => ?_⟩
    · have hcond : ((wakeIncomingReader st3).ref_count == 0 &&
          (wakeIncomingReader st3).connections.is_empty) = true := by
        simp [hc.1, hc.2, ConnectionSet.is_empty]
      simp only [EndpointDriver.poll, hr, hs, hcond]
      rfl
    · have hcond : ((wakeIncomingReader st3).ref_count == 0 &&
          (wakeIncomingReader st3).connections.is_empty) = false := by
        by_contra hbad
        rw [Bool.not_eq_false, Bool.and_eq_true] at hbad
        refine hc ⟨by simpa using hbad.1, ?_⟩
        simpa [ConnectionSet.is_empty, List.isEmpty_iff] using hbad.2
      simp only [EndpointDriver.poll, hr, hs, hcond, hk]
      rfl
    · have hcond : ((wakeIncomingReader st3).ref_count == 0 &&
          (wakeIncomingReader st3).connections.is_empty) = false := by
        by_contra hbad
        rw [Bool.not_eq_false, Bool.and_eq_true] at hbad
        refine hc ⟨by simpa using hbad.1, ?_⟩
        simpa [ConnectionSet.is_empty, List.isEmpty_iff] using hbad.2
      simp only [EndpointDriver.poll, hr, hs, hcond, hk]
      rfl
  · simp only [EndpointDriver.poll] at hp
    split at hp <;> try (cases hp)
    split at hp <;> try (cases hp)
    split at hp
    · next hcond =>
        injection hp with hp1
        injection hp1 with hp2 hp3
        subst hp3
        rw [Bool.and_eq_true] at hcond
        refine ⟨by simpa using hcond.1, ?_⟩
        simpa [ConnectionSet.is_empty, List.isEmpty_iff] using hcond.2
    · split at hp <;> simp at hp

theorem endpointDriver_poll_spec_witness :
    EndpointDriver.poll 0 emptyState =
      .ok (.readyOk, { emptyState with driver := some 0, idle_notified := true }) := by
  have h := ((endpointDriver_poll_spec emptyState 0
      { emptyState with driver := some 0 } rfl).2.2.1 false
      { emptyState with driver := some 0 } false
      { emptyState with driver := some 0, idle_notified := true }
      (by decide) (by decide)).1 (by decide)
  exact h

end Quinn
